import Mathlib

/-!
Shallow embedding of the django-pageviews tracking core.

The definitions below are transcribed from the repository sources:
`django_pageviews/models.py` (PageView query helpers and
`increment_view_count`), `django_pageviews/middleware.py`
(`PageViewMiddleware`), `django_pageviews/mixins.py` (`PageViewMixin`)
and `django_pageviews/tasks.py` (the Redis buffering pipeline).

Conventions used throughout:
* Django querysets over the append-only `PageView` table are modelled as
  Lean lists of rows; `objects.create` prepends a row.
* The expiring key-value cache is a list of `(key, expiresAt)` pairs plus
  a `failing` flag; a failing backend makes `get`/`set` raise, modelled
  with `Except Unit`.
* Python truthiness of optional strings (`None` and `""` are falsy) is
  modelled by `optTruthy`.
* SQL `GROUP BY` with `COUNT` is modelled by `groupPairs`, which lists
  each distinct key once with its multiplicity; `ORDER BY view_count
  DESC` is modelled by the stable insertion sort `sortDesc` (the SQL tie
  order among equal counts is unspecified; nothing proved here depends
  on the tie order).
-/

/-- Boolean test that `p` is a leading segment of the second list
(Python `str.startswith` on character lists). -/
def leadSeg [DecidableEq α] : List α → List α → Bool
  | [], _ => true
  | _ :: _, [] => false
  | a :: as, b :: bs => a == b && leadSeg as bs

/-- Boolean test that `needle` occurs contiguously inside the second list
(Python `in` on strings). -/
def subIn [DecidableEq α] (needle : List α) : List α → Bool
  | [] => leadSeg needle []
  | b :: bs => leadSeg needle (b :: bs) || subIn needle bs

/-- Python `needle in hay` for strings. -/
def strHas (needle hay : String) : Bool := subIn needle.data hay.data

/-- Python truthiness of an optional string: `None` and `""` are falsy. -/
def optTruthy : Option String → Bool
  | none => false
  | some s => s != ""

/-- Python `str.startswith(pre)`. -/
def pyStarts (s pre : String) : Bool := leadSeg pre.data s.data

/-- Python `str.endswith(suf)`. -/
def pyEnds (s suf : String) : Bool := leadSeg suf.data.reverse s.data.reverse

/-- Python `str.strip()`: remove leading and trailing whitespace. -/
def pyStrip (s : String) : String :=
  String.mk (((s.data.dropWhile Char.isWhitespace).reverse.dropWhile Char.isWhitespace).reverse)

/-- Python `str.split(sep)` for a one-character separator, on character
lists; splitting the empty string yields one empty group. -/
def splitChar (sep : Char) : List Char → List (List Char)
  | [] => [[]]
  | c :: rest =>
    let r := splitChar sep rest
    if c == sep then [] :: r
    else
      match r with
      | [] => [[c]]
      | g :: gs => (c :: g) :: gs

/-- Python `str.split(sep)` for a one-character separator. -/
def pySplit (sep : Char) (s : String) : List String :=
  (splitChar sep s.data).map (fun cs => String.mk cs)

/-- Python `str.lower()` on the character list. -/
def pyLower (s : String) : String := String.mk (s.data.map Char.toLower)

/-- Python `dict.get(k)` over an insertion-ordered association list. -/
def alLookup [DecidableEq α] (k : α) : List (α × β) → Option β
  | [] => none
  | (k', v) :: rest => if k' = k then some v else alLookup k rest

/-- Python `d[k] = v` over an insertion-ordered association list:
overwrite in place if the key is present, append otherwise. -/
def setKey [DecidableEq α] (k : α) (v : β) : List (α × β) → List (α × β)
  | [] => [(k, v)]
  | (k', v') :: rest => if k' = k then (k, v) :: rest else (k', v') :: setKey k v rest

/-- The distinct elements of a list in first-appearance order. -/
def firstOccs [DecidableEq α] : List α → List α
  | [] => []
  | d :: rest => d :: (firstOccs rest).filter (fun e => e != d)

/-- SQL `GROUP BY key` with `COUNT`: each distinct element of the list
paired with its multiplicity, keys in first-appearance order. -/
def groupPairs [DecidableEq α] (l : List α) : List (α × Nat) :=
  (firstOccs l).map (fun d => (d, l.count d))

/-- Stable insertion of a counted key into a list sorted by count descending. -/
def insertDesc (x : α × Nat) : List (α × Nat) → List (α × Nat)
  | [] => [x]
  | y :: ys => if y.2 < x.2 then x :: y :: ys else y :: insertDesc x ys

/-- Stable sort by count descending (`ORDER BY view_count DESC`). -/
def sortDesc (l : List (α × Nat)) : List (α × Nat) := l.foldr insertDesc []

/-! ## Expiring key-value cache (Django `cache` backend) -/

/-- The throttle cache: live entries `(key, expiresAt)` plus a flag that
makes the backend raise on every operation (cache unavailability). -/
structure Cache where
  entries : List (String × Nat)
  failing : Bool
deriving DecidableEq

/-- `cache.get(key)` at time `now`: truthy iff an unexpired entry for the
key exists; raises when the backend is failing. -/
def cacheGet (c : Cache) (now : Nat) (key : String) : Except Unit Bool :=
  if c.failing then .error ()
  else .ok (c.entries.any (fun e => e.1 == key && now < e.2))

/-- `cache.set(key, True, ttl)` at time `now`; raises when the backend is
failing. -/
def cacheSet (c : Cache) (now ttl : Nat) (key : String) : Except Unit Cache :=
  if c.failing then .error ()
  else .ok { c with entries := (key, now + ttl) :: c.entries }

/-! ## Buffering pipeline (`tasks.py`) -/

/-- `buffer_page_view` (tasks.py 36-61), Redis available: `lpush` the
serialized payload onto the head of the buffer list, and report whether
the buffer length has reached the batch size (in which case the code
dispatches `process_pageview_buffer.delay()`). -/
def buffer_page_view (batchSize : Nat) (q : List α) (p : α) : List α × Bool :=
  let q2 := p :: q
  (q2, batchSize ≤ q2.length)

/-- The `rpop` loop of `process_pageview_buffer` (tasks.py 108-113): pop
from the tail up to `fuel` times, stopping early when the list is empty.
Returns the popped payloads oldest-first and the remaining queue. -/
def rpopLoop (fuel : Nat) (q : List α) : List α × List α :=
  match fuel with
  | 0 => ([], q)
  | Nat.succ k =>
    match q.getLast? with
    | none => ([], q)
    | some x =>
      let r := rpopLoop k q.dropLast
      (x :: r.1, r.2)

/-- `process_pageview_buffer` (tasks.py 92-143): pop up to `batchSize`
payloads from the tail and, if any were popped, bulk-create them in the
event store (appended in pop order). Returns (remaining queue, store). -/
def process_pageview_buffer (batchSize : Nat) (q store : List α) : List α × List α :=
  let pr := rpopLoop batchSize q
  (pr.2, if pr.1.isEmpty then store else store ++ pr.1)

/-- Driver for the enqueue scenario: enqueue each payload in turn via
`buffer_page_view`, running the triggered flush immediately whenever the
batch-size threshold is reported. State is (queue, store). -/
def enqueueAll (batchSize : Nat) (ps : List α) (init : List α × List α) :
    List α × List α :=
  ps.foldl (fun qs p =>
    let eq := buffer_page_view batchSize qs.1 p
    if eq.2 then process_pageview_buffer batchSize eq.1 qs.2
    else (eq.1, qs.2)) init

/-! ## Popularity queries (`models.py`) -/

/-- One `PageView` row as seen by the popularity queries: the generic
foreign key target id and the timestamp (whole days, signed). -/
structure PopEvent where
  objId : Nat
  ts : Int
deriving DecidableEq

/-- A row of the target model table: primary key and the optional `slug`
column. -/
structure ModelObj where
  pk : Nat
  slug : Option String
deriving DecidableEq

/-- The slug filter of `get_popular_objects` (models.py 199-200):
`exclude(slug__isnull=True).exclude(slug='')` keeps exactly the rows with
a non-null, non-empty slug. -/
def slugOk (o : ModelObj) : Bool :=
  match o.slug with
  | none => false
  | some s => s != ""

/-- The date filter of the popularity queries (models.py 186-188):
`if days:` is Python-falsy for `None` and `0`; otherwise keep events with
`timestamp >= now - days`. -/
def popFiltered (events : List PopEvent) (days : Option Nat) (now : Int) :
    List PopEvent :=
  match days with
  | some d => if 0 < d then events.filter (fun e => decide (now - (d : Int) ≤ e.ts)) else events
  | none => events

/-- The ranked candidate list of `get_popular_objects` (models.py
191-193): group the date-filtered events by `object_id`, count, and order
by count descending. -/
def rankedCandidates (events : List PopEvent) (days : Option Nat) (now : Int) :
    List (Nat × Nat) :=
  sortDesc (groupPairs ((popFiltered events days now).map (·.objId)))

/-- The object dictionary the result loop resolves against: the model
table, restricted to slug-valid rows when the slug filter is applied. -/
def resolveObjs (objs : List ModelObj) (slugFiltered : Bool) : List ModelObj :=
  if slugFiltered then objs.filter slugOk else objs

/-- The result loop shared by `get_popular_objects` (models.py 209-215)
and `get_popular_objects_raw` (models.py 257-263): walk the candidate
list, keep candidates whose object resolves in the dictionary, break once
`limit` results have been collected. -/
def popLoop (dict : List ModelObj) (limit : Nat) :
    List (Nat × Nat) → List (ModelObj × Nat) → List (ModelObj × Nat)
  | [], acc => acc.reverse
  | c :: rest, acc =>
    match dict.find? (fun o => o.pk == c.1) with
    | some o =>
      let acc2 := (o, c.2) :: acc
      if limit ≤ acc2.length then acc2.reverse else popLoop dict limit rest acc2
    | none => popLoop dict limit rest acc

/-- `PageView.get_popular_objects` (models.py 167-217). `hasSlug` states
whether the model declares a `slug` field; when it does not,
`model_class._meta.get_field('slug')` (models.py 199) raises
`FieldDoesNotExist`, which propagates to the caller. With a slug field the
candidate list is the top `limit*2` ranked ids ("Get more than needed in
case some are invalid"), resolved against the slug-filtered model table. -/
def get_popular_objects (events : List PopEvent) (objs : List ModelObj)
    (hasSlug : Bool) (limit : Nat) (days : Option Nat) (now : Int) :
    Except Unit (List (ModelObj × Nat)) :=
  if hasSlug then
    let cands := (rankedCandidates events days now).take (limit * 2)
    .ok (popLoop (resolveObjs objs true) limit cands [])
  else .error ()

/-- `PageView.get_popular_objects_raw` (models.py 219-265): top `limit`
ranked ids, resolved against the unfiltered model table. -/
def get_popular_objects_raw (events : List PopEvent) (objs : List ModelObj)
    (limit : Nat) (days : Option Nat) (now : Int) : List (ModelObj × Nat) :=
  let cands := (rankedCandidates events days now).take limit
  popLoop (resolveObjs objs false) limit cands []

/-! ## Daily histogram and batch counts (`models.py`) -/

/-- One `PageView` row as seen by `get_daily_views`: generic foreign key
pair and the calendar date of the timestamp (signed day number). -/
structure DailyEvent where
  ctId : Nat
  objId : Nat
  date : Int
deriving DecidableEq

/-- `PageView.get_daily_views` (models.py 131-165): filter the subject's
events to the `days`-day window ending today, group by calendar date, then
zero-initialise one dictionary slot per date in the window and overwrite
the slots that the grouped query reports. (The query's `order_by('date')`
only fixes iteration order over the grouped rows; the dictionary result
does not depend on it.) -/
def get_daily_views (events : List DailyEvent) (ctId objId : Nat)
    (today : Int) (days : Nat) : List (Int × Nat) :=
  let start := today - ((days : Int) - 1)
  let matching := events.filter (fun e =>
    e.ctId == ctId && e.objId == objId &&
    decide (start ≤ e.date) && decide (e.date ≤ today))
  let daily_counts := groupPairs (matching.map (·.date))
  let base := (List.range days).map (fun (i : Nat) => (start + (i : Int), 0))
  daily_counts.foldl (fun acc dc => setKey dc.1 dc.2 acc) base

/-- One `PageView` row as seen by `get_view_counts_for_objects`: the
generic foreign key pair. -/
structure CountEvent where
  ctId : Nat
  objId : Nat
deriving DecidableEq

/-- A row of the target model table as seen by
`get_view_counts_for_objects`: just the primary key. -/
structure BatchObj where
  pk : Nat
deriving DecidableEq

/-- `PageView.get_view_counts_for_objects` (models.py 59-79): for a
non-empty object list, one grouped query over events of the objects'
content type restricted to their ids, then a pure dictionary
comprehension `{obj.pk: count_map.get(obj.pk, 0) for obj in objects}`.
The second component counts the event-store queries evaluated: `0` on the
early empty return, otherwise exactly `1` (the grouped aggregate),
independent of the length of `objects`. -/
def get_view_counts_for_objects (events : List CountEvent) (modelCt : Nat)
    (objects : List BatchObj) : List (Nat × Nat) × Nat :=
  if objects.isEmpty then ([], 0)
  else
    let ids := objects.map (·.pk)
    let filtered := events.filter (fun e => e.ctId == modelCt && ids.contains e.objId)
    let count_map := groupPairs (filtered.map (·.objId))
    (objects.foldl (fun acc o => setKey o.pk ((alLookup o.pk count_map).getD 0) acc) [], 1)

/-! ## Settings (`settings.py`) -/

/-- The recognized configuration surface (settings.py DEFAULTS plus the
`PAGEVIEW_`-prefixed overrides), already resolved to values. -/
structure AppSettings where
  throttleSeconds : Nat
  batchSize : Nat
  botPatterns : List String
  excludeAdmin : Bool
  excludeAjax : Bool
  excludePaths : List String
  excludeIps : List String
  asyncProcessing : Bool

/-! ## View-object resolution (`middleware.py _get_object_from_view`) -/

/-- A resolved tracked object: the content-type id Django assigns to its
model plus the object's own id. -/
structure TrackedObj where
  ctId : Nat
  objId : Nat
deriving DecidableEq

/-- Behaviour of one class-based view as probed by
`_get_object_from_view` (middleware.py 178-257). `Except Unit` results
model Python calls that may raise (caught by the per-strategy handlers);
`modelLookup f` models `model.objects.get(**{f: kwargs[f]})`, where
`none` stands for `DoesNotExist`. -/
structure ViewDesc where
  hasViewClass : Bool
  initRaises : Bool
  hasGetTracked : Bool
  hasGetQueryset : Bool
  getQuerysetRaises : Bool
  getTrackedResult : Except Unit (Option TrackedObj)
  hasGetObject : Bool
  getObjectResult : Except Unit (Option TrackedObj)
  querysetFirst : Option TrackedObj
  hasModel : Bool
  kwargs : List String
  modelLookup : String → Option TrackedObj
  objAttr : Option TrackedObj

/-- The `for pk_field in ('pk', 'id', 'slug')` lookup loop (middleware.py
238-246): for each field present in the route kwargs try the model
lookup, continuing past `DoesNotExist`. -/
def kwargsLoop (kwargs : List String) (lookup : String → Option TrackedObj) :
    List String → Option TrackedObj
  | [] => none
  | f :: rest =>
    if kwargs.contains f then
      match lookup f with
      | some o => some o
      | none => kwargsLoop kwargs lookup rest
    else kwargsLoop kwargs lookup rest

/-- `PageViewMiddleware._get_object_from_view` (middleware.py 178-257).
Strategies in source order: `get_tracked_object` (its returned value —
including `None` — is returned verbatim; only a raised exception falls
through), then `get_object` (falsy result or exception falls through),
then queryset-first, then the pk/id/slug kwargs lookup, then the view
instance's `object` attribute. -/
def get_object_from_view (v : ViewDesc) : Option TrackedObj :=
  if !v.hasViewClass then none
  else if v.initRaises then none
  else
    let step5 := v.objAttr
    let step4 :=
      if v.hasModel then
        match kwargsLoop v.kwargs v.modelLookup ["pk", "id", "slug"] with
        | some o => some o
        | none => step5
      else step5
    let step3 :=
      if v.hasGetQueryset then
        if v.getQuerysetRaises then step4
        else
          match v.querysetFirst with
          | some o => some o
          | none => step4
      else step4
    let step2 :=
      if v.hasGetObject then
        match v.getObjectResult with
        | .ok (some o) => some o
        | _ => step3
      else step3
    if v.hasGetTracked then
      if v.hasGetQueryset && v.getQuerysetRaises then step2
      else
        match v.getTrackedResult with
        | .ok r => r
        | .error _ => step2
    else step2

/-! ## The HTTP request as seen by the middleware -/

/-- `request.resolver_match` when present: the logical view name and the
view callable's behaviour. -/
structure RMatch where
  viewName : Option String
  view : ViewDesc

/-- The inbound request/response pair as consumed by `process_response`:
response status, method, path, the headers `get_client_ip` and the
exclusion rules read, authentication state and session accessor.
`savedKey` is the session key `request.session.save()` would assign when
no session key exists yet. -/
structure HttpRequest where
  statusCode : Nat
  method : String
  path : String
  xRequestedWith : Option String
  userAgent : String
  userAuthenticated : Bool
  userId : Nat
  hasSession : Bool
  sessionKey0 : Option String
  savedKey : String
  cfIp : Option String
  xForwardedFor : Option String
  xRealIp : Option String
  remoteAddr : String
  resolverMatch : Option RMatch

/-- `PageViewMiddleware.get_client_ip` (middleware.py 282-312):
Cloudflare header, else first comma-separated entry of X-Forwarded-For
(stripped), else X-Real-IP, else REMOTE_ADDR; strip enclosing brackets;
for a single-colon address drop the port part. -/
def get_client_ip (req : HttpRequest) : String :=
  let ip0 :=
    if optTruthy req.cfIp then req.cfIp.getD ""
    else if optTruthy req.xForwardedFor then
      pyStrip ((pySplit ',' (req.xForwardedFor.getD "")).headD "")
    else if optTruthy req.xRealIp then req.xRealIp.getD ""
    else req.remoteAddr
  let ip1 :=
    if pyStarts ip0 "[" && pyEnds ip0 "]" then String.mk (ip0.data.drop 1).dropLast
    else ip0
  if ip1 != "" && ip1.data.contains ':' then
    if 1 < ip1.data.count ':' then ip1
    else String.mk ((splitChar ':' ip1.data).headD [])
  else ip1

/-- `PageViewMiddleware._should_track_view` (middleware.py 109-135):
admin prefix, AJAX header, excluded path substrings, excluded client
IPs. -/
def should_track_view (s : AppSettings) (req : HttpRequest) : Bool :=
  !(s.excludeAdmin && pyStarts req.path "/admin/") &&
  !(s.excludeAjax && req.xRequestedWith == some "XMLHttpRequest") &&
  !(s.excludePaths.any (fun p => strHas p req.path)) &&
  !(s.excludeIps.contains (get_client_ip req))

/-- The bot filter of `_should_record_view` (middleware.py 142-147): any
configured pattern occurring in the lower-cased user agent. -/
def isBot (s : AppSettings) (req : HttpRequest) : Bool :=
  s.botPatterns.any (fun p => strHas p (pyLower req.userAgent))

/-- The visitor-identity part of the middleware throttle key
(middleware.py 155-164): authenticated user id, else truthy session key,
else client IP. There is no separate anonymous bucket on this path. -/
def middlewareUserKey (req : HttpRequest) : String :=
  if req.userAuthenticated then "user:" ++ toString req.userId
  else if req.hasSession && optTruthy req.sessionKey0 then
    "session:" ++ (req.sessionKey0.getD "")
  else "ip:" ++ get_client_ip req

/-- The middleware throttle key (middleware.py 167): visitor identity
combined with the request path. -/
def middlewareCacheKey (req : HttpRequest) : String :=
  "pageview_throttle:" ++ middlewareUserKey req ++ ":" ++ req.path

/-- `PageViewMiddleware._should_record_view` (middleware.py 137-176):
reject bots; look up the throttle key (reject a hit without side
effects); on a miss set the key with the configured expiry and admit.
Cache errors propagate to the caller. -/
def should_record_view (s : AppSettings) (now : Nat) (c : Cache)
    (req : HttpRequest) : Except Unit (Bool × Cache) :=
  if isBot s req then .ok (false, c)
  else do
    let hit ← cacheGet c now (middlewareCacheKey req)
    if hit then .ok (false, c)
    else do
      let c2 ← cacheSet c now s.throttleSeconds (middlewareCacheKey req)
      .ok (true, c2)

/-- A persisted `PageView` row (models.py 10-24) as created by the
recording paths. -/
structure PageViewRow where
  contentTypeId : Option Nat
  objectId : Option Nat
  url : String
  viewName : Option String
  ipAddress : Option String
  userAgent : Option String
  sessionKey : Option String
  timestamp : Nat
deriving DecidableEq

/-- The session key the middleware records (middleware.py 56-63): the
current session key, or the key assigned by `session.save()` when none
exists yet. -/
def middlewareSessionKey (req : HttpRequest) : Option String :=
  if req.hasSession then
    if optTruthy req.sessionKey0 then req.sessionKey0 else some req.savedKey
  else none

/-- The subject the middleware resolves for the request (middleware.py
33-48): only when a resolver match is present. -/
def resolvedSubject (req : HttpRequest) : Option TrackedObj :=
  match req.resolverMatch with
  | some rm => get_object_from_view rm.view
  | none => none

/-- The view name the middleware records (middleware.py 33-34). -/
def middlewareViewName (req : HttpRequest) : Option String :=
  match req.resolverMatch with
  | some rm => rm.viewName
  | none => none

/-- The row `_record_view_sync` (middleware.py 259-280) creates for an
admitted visit at time `now`. -/
def middlewareRow (now : Nat) (req : HttpRequest) : PageViewRow :=
  { contentTypeId := (resolvedSubject req).map (·.ctId)
    objectId := (resolvedSubject req).map (·.objId)
    url := req.path
    viewName := middlewareViewName req
    ipAddress := some (get_client_ip req)
    userAgent := some req.userAgent
    sessionKey := middlewareSessionKey req
    timestamp := now }

/-- The mutable state the recording paths touch: throttle cache, event
store (newest row first) and the async buffer list (newest payload
first). -/
structure SysState where
  cache : Cache
  store : List PageViewRow
  buffer : List PageViewRow
deriving DecidableEq

/-- `PageViewMiddleware.process_response` (middleware.py 14-107): only
200-status GET requests are considered; classification and throttling
gate the recording; an admitted visit is recorded synchronously or
buffered depending on `ASYNC_PROCESSING`; any exception escaping the
body — in this model, a cache error — is caught at the outer
`try`/`except`, logged, and swallowed, leaving the response (and the
state reached before the raise: no mutation precedes a raising cache
operation) unchanged. -/
def process_response (s : AppSettings) (now : Nat) (st : SysState)
    (req : HttpRequest) : SysState :=
  if req.statusCode == 200 && req.method == "GET" then
    let attempt : Except Unit SysState :=
      if !(should_track_view s req) then .ok st
      else do
        let pr ← should_record_view s now st.cache req
        if !pr.1 then .ok { st with cache := pr.2 }
        else
          let row := middlewareRow now req
          if s.asyncProcessing then
            .ok { st with cache := pr.2, buffer := row :: st.buffer }
          else
            .ok { st with cache := pr.2, store := row :: st.store }
    match attempt with
    | .ok st2 => st2
    | .error _ => st
  else st

/-! ## `PageView.increment_view_count` and the view mixin -/

/-- The visitor-identity part of the `increment_view_count` throttle key
(models.py 91-98): authenticated request user, else truthy session key,
else truthy ip address, else the literal `"anon"` bucket. -/
def incrementUserKey (authUserId : Option Nat) (sessionKey ip : Option String) :
    String :=
  match authUserId with
  | some uid => "user:" ++ toString uid
  | none =>
    if optTruthy sessionKey then "session:" ++ sessionKey.getD ""
    else if optTruthy ip then "ip:" ++ ip.getD ""
    else "anon"

/-- The `increment_view_count` throttle key (models.py 99): content type,
object id and visitor identity; the URL does not appear. -/
def incrementCacheKey (ctId objId : Nat) (userKey : String) : String :=
  "pageview_throttle:" ++ toString ctId ++ ":" ++ toString objId ++ ":" ++ userKey

/-- `PageView.increment_view_count` (models.py 81-112): look up the
throttle key (a raising `get` aborts before any side effect), skip on a
hit, otherwise create the row first and then set the key (a raising `set`
leaves the already-created row in place — the caller catches the
exception). Returns the cache and store after the call, side effects of
a partially-failed call included. -/
def increment_view_count (throttleSeconds now : Nat) (c : Cache)
    (store : List PageViewRow) (ctId objId : Nat) (ip ua sk : Option String)
    (authUserId : Option Nat) : Cache × List PageViewRow :=
  let key := incrementCacheKey ctId objId (incrementUserKey authUserId sk ip)
  match cacheGet c now key with
  | .error _ => (c, store)
  | .ok true => (c, store)
  | .ok false =>
    let row : PageViewRow :=
      { contentTypeId := some ctId, objectId := some objId, url := ""
        viewName := none, ipAddress := ip, userAgent := ua, sessionKey := sk
        timestamp := now }
    let store2 := row :: store
    match cacheSet c now throttleSeconds key with
    | .error _ => (c, store2)
    | .ok c2 => (c2, store2)

/-- The request data `PageViewMixin`'s patched dispatch reads
(mixins.py 56-73). -/
structure MixinRequest where
  method : String
  statusCode : Nat
  xForwardedFor : Option String
  remoteAddr : Option String
  userAgent : String
  hasSession : Bool
  sessionKey0 : Option String
  savedKey : String

/-- The IP the mixin passes to `increment_view_count` (mixins.py 58-62):
first comma-separated X-Forwarded-For entry (no strip), else
REMOTE_ADDR. -/
def mixinIp (req : MixinRequest) : Option String :=
  if optTruthy req.xForwardedFor then
    some ((pySplit ',' (req.xForwardedFor.getD "")).headD "")
  else req.remoteAddr

/-- The session key the mixin passes along (mixins.py 67-73), saving a
fresh session when none exists. -/
def mixinSessionKey (req : MixinRequest) : Option String :=
  if req.hasSession then
    if optTruthy req.sessionKey0 then req.sessionKey0 else some req.savedKey
  else none

/-- `PageViewMixin.__init_subclass__`'s `patched_dispatch`
(mixins.py 44-87): after the wrapped dispatch produced the response, only
GET requests with a 200 response are tracked; `get_tracked_object` is
consulted (`tracked` models its outcome, `.error` a raised exception that
the surrounding handler catches) and a truthy object is recorded through
`increment_view_count` with no request user. -/
def patched_dispatch (throttleSeconds now : Nat) (c : Cache)
    (store : List PageViewRow) (req : MixinRequest)
    (tracked : Except Unit (Option TrackedObj)) : Cache × List PageViewRow :=
  if req.method == "GET" && req.statusCode == 200 then
    match tracked with
    | .error _ => (c, store)
    | .ok none => (c, store)
    | .ok (some o) =>
      increment_view_count throttleSeconds now c store o.ctId o.objId
        (mixinIp req) (some req.userAgent) (mixinSessionKey req) none
  else (c, store)

/-! ## Concrete sample data used by counterexamples and witnesses -/

/-- Default-like settings: no bot patterns, no exclusions beyond the
defaults, synchronous recording, 20-second throttle. -/
def sampleSettings : AppSettings :=
  { throttleSeconds := 20, batchSize := 100, botPatterns := [],
    excludeAdmin := true, excludeAjax := true, excludePaths := [],
    excludeIps := [], asyncProcessing := false }

/-- A class-based view whose `get_tracked_object` returns the object
`(content type 1, id 5)`. -/
def sampleView : ViewDesc :=
  { hasViewClass := true, initRaises := false, hasGetTracked := true,
    hasGetQueryset := false, getQuerysetRaises := false,
    getTrackedResult := .ok (some { ctId := 1, objId := 5 }),
    hasGetObject := false, getObjectResult := .ok none,
    querysetFirst := none, hasModel := false, kwargs := [],
    modelLookup := fun _ => none, objAttr := none }

/-- An eligible GET request to `/x/` from IP 1.2.3.4, unauthenticated,
no session, resolving to `sampleView`. -/
def sampleRequest : HttpRequest :=
  { statusCode := 200, method := "GET", path := "/x/",
    xRequestedWith := none, userAgent := "", userAuthenticated := false,
    userId := 0, hasSession := false, sessionKey0 := none, savedKey := "",
    cfIp := none, xForwardedFor := none, xRealIp := none,
    remoteAddr := "1.2.3.4",
    resolverMatch := some { viewName := some "v", view := sampleView } }

/-- The same visit as `sampleRequest` except that the view resolves the
distinct object `(content type 1, id 6)`. -/
def sampleRequest2 : HttpRequest :=
  { sampleRequest with
    resolverMatch := some
      { viewName := some "v",
        view := { sampleView with getTrackedResult := .ok (some { ctId := 1, objId := 6 }) } } }

/-- A class-based view whose `get_tracked_object` explicitly answers
"nothing to track" (returns `None`), while later strategies would have
produced objects. -/
def sampleViewNone : ViewDesc :=
  { hasViewClass := true, initRaises := false, hasGetTracked := true,
    hasGetQueryset := false, getQuerysetRaises := false,
    getTrackedResult := .ok none,
    hasGetObject := true, getObjectResult := .ok (some { ctId := 9, objId := 9 }),
    querysetFirst := some { ctId := 8, objId := 8 }, hasModel := true,
    kwargs := ["pk"], modelLookup := fun _ => some { ctId := 7, objId := 7 },
    objAttr := some { ctId := 6, objId := 6 } }

/-- An eligible request whose view resolves no subject
(`get_tracked_object` answers `None`). -/
def sampleRequestBare : HttpRequest :=
  { sampleRequest with
    resolverMatch := some { viewName := some "v", view := sampleViewNone } }

/-- Empty system state over a working cache. -/
def emptyState : SysState :=
  { cache := { entries := [], failing := false }, store := [], buffer := [] }

/-- Empty system state over a failing (unavailable) cache backend. -/
def failingCacheState : SysState :=
  { cache := { entries := [], failing := true }, store := [], buffer := [] }

/-- Events for the C1 counterexample: subject 1 viewed three times,
subject 2 twice, subject 3 once. -/
def popCexEvents : List PopEvent :=
  [{ objId := 1, ts := 0 }, { objId := 1, ts := 0 }, { objId := 1, ts := 0 },
   { objId := 2, ts := 0 }, { objId := 2, ts := 0 }, { objId := 3, ts := 0 }]

/-- Model table for the C1 counterexample: only subject 3 still exists
(with a valid slug). -/
def popCexObjs : List ModelObj := [{ pk := 3, slug := some "s" }]

/-! ## Association-list and grouping lemmas -/

theorem alLookup_setKey_self [DecidableEq α] (k : α) (v : β) :
    ∀ l : List (α × β), alLookup k (setKey k v l) = some v := by
  intro l
  induction l with
  | nil => simp [setKey, alLookup]
  | cons hd tl ih =>
    by_cases h : hd.1 = k
    · simp [setKey, alLookup, h]
    · simp [setKey, alLookup, h, ih]

theorem alLookup_setKey_ne [DecidableEq α] (k k' : α) (v : β) (hne : k' ≠ k) :
    ∀ l : List (α × β), alLookup k' (setKey k v l) = alLookup k' l := by
  have hks : k ≠ k' := Ne.symm hne
  intro l
  induction l with
  | nil => simp [setKey, alLookup, hks]
  | cons hd tl ih =>
    by_cases h : hd.1 = k
    · simp [setKey, alLookup, h, hks]
    · simp [setKey, alLookup, h, ih]

theorem alLookup_eq_none_of_not_mem [DecidableEq α] (k : α) :
    ∀ l : List (α × β), k ∉ l.map Prod.fst → alLookup k l = none := by
  intro l
  induction l with
  | nil => intro _; rfl
  | cons hd tl ih =>
    intro hmem
    have h1 : hd.1 ≠ k := by
      intro hh
      exact hmem (hh ▸ List.mem_map.mpr ⟨hd, List.mem_cons_self _ _, rfl⟩)
    simp [alLookup, h1, ih (fun hh => hmem (List.mem_cons_of_mem _ hh))]

theorem map_fst_setKey [DecidableEq α] (k : α) (v : β) :
    ∀ l : List (α × β), k ∈ l.map Prod.fst →
      (setKey k v l).map Prod.fst = l.map Prod.fst := by
  intro l
  induction l with
  | nil => simp
  | cons hd tl ih =>
    intro hmem
    by_cases h : hd.1 = k
    · simp [setKey, h]
    · have : k ∈ tl.map Prod.fst := by
        rcases List.mem_map.mp hmem with ⟨p, hp, hpk⟩
        rcases List.mem_cons.mp hp with rfl | hp2
        · exact absurd hpk h
        · exact List.mem_map.mpr ⟨p, hp2, hpk⟩
      simp [setKey, h, ih this]

theorem map_fst_foldl_setKey [DecidableEq α] :
    ∀ (updates : List (α × Nat)) (init : List (α × Nat)),
      (∀ dc ∈ updates, dc.1 ∈ init.map Prod.fst) →
      (updates.foldl (fun acc dc => setKey dc.1 dc.2 acc) init).map Prod.fst =
        init.map Prod.fst := by
  intro updates
  induction updates with
  | nil => intro init _; rfl
  | cons dc rest ih =>
    intro init hmem
    have hd : dc.1 ∈ init.map Prod.fst := hmem dc (List.mem_cons_self _ _)
    have hkeys := map_fst_setKey dc.1 dc.2 init hd
    calc ((dc :: rest).foldl (fun acc dc => setKey dc.1 dc.2 acc) init).map Prod.fst
        = (rest.foldl (fun acc dc => setKey dc.1 dc.2 acc) (setKey dc.1 dc.2 init)).map Prod.fst := rfl
      _ = (setKey dc.1 dc.2 init).map Prod.fst := by
          refine ih _ (fun dc' hdc' => ?_)
          rw [hkeys]
          exact hmem dc' (List.mem_cons_of_mem _ hdc')
      _ = init.map Prod.fst := hkeys

theorem alLookup_foldl_setKey [DecidableEq α] :
    ∀ (updates : List (α × Nat)),
      (updates.map Prod.fst).Nodup →
      ∀ (init : List (α × Nat)) (k : α),
        alLookup k (updates.foldl (fun acc dc => setKey dc.1 dc.2 acc) init) =
          match alLookup k updates with
          | some v => some v
          | none => alLookup k init := by
  intro updates
  induction updates with
  | nil => intro _ init k; rfl
  | cons dc rest ih =>
    intro hnd init k
    rw [List.map_cons, List.nodup_cons] at hnd
    have step : (dc :: rest).foldl (fun acc dc => setKey dc.1 dc.2 acc) init =
        rest.foldl (fun acc dc => setKey dc.1 dc.2 acc) (setKey dc.1 dc.2 init) := rfl
    rw [step, ih hnd.2]
    by_cases hk : dc.1 = k
    · subst hk
      have hrest : alLookup dc.1 rest = none :=
        alLookup_eq_none_of_not_mem dc.1 rest hnd.1
      simp [alLookup, hrest, alLookup_setKey_self]
    · have hset : alLookup k (setKey dc.1 dc.2 init) = alLookup k init :=
        alLookup_setKey_ne dc.1 k dc.2 (fun h => hk h.symm) init
      simp [alLookup, hk, hset]

theorem mem_firstOccs [DecidableEq α] :
    ∀ (l : List α) (x : α), x ∈ firstOccs l ↔ x ∈ l := by
  intro l
  induction l with
  | nil => intro x; simp [firstOccs]
  | cons d rest ih =>
    intro x
    rw [firstOccs, List.mem_cons, List.mem_cons]
    constructor
    · rintro (rfl | h)
      · exact Or.inl rfl
      · exact Or.inr ((ih x).mp (List.mem_of_mem_filter h))
    · rintro (rfl | h)
      · exact Or.inl rfl
      · by_cases hx : x = d
        · exact Or.inl hx
        · refine Or.inr (List.mem_filter.mpr ⟨(ih x).mpr h, ?_⟩)
          simp [bne_iff_ne, hx]
    
theorem firstOccs_nodup [DecidableEq α] :
    ∀ (l : List α), (firstOccs l).Nodup := by
  intro l
  induction l with
  | nil => simp [firstOccs]
  | cons d rest ih =>
    rw [firstOccs, List.nodup_cons]
    refine ⟨fun hmem => ?_, ih.filter _⟩
    have := List.of_mem_filter hmem
    simp [bne_iff_ne] at this

theorem alLookup_map_keyfun [DecidableEq α] (f : α → β) :
    ∀ (ds : List α) (k : α),
      alLookup k (ds.map (fun d => (d, f d))) = if k ∈ ds then some (f k) else none := by
  intro ds
  induction ds with
  | nil => intro k; simp [alLookup]
  | cons d rest ih =>
    intro k
    by_cases hd : d = k
    · subst hd
      simp [alLookup]
    · rw [List.map_cons]
      have h1 : alLookup k ((d, f d) :: rest.map (fun d => (d, f d))) =
          alLookup k (rest.map (fun d => (d, f d))) := by
        simp [alLookup, hd]
      rw [h1, ih k]
      by_cases hk : k ∈ rest
      · rw [if_pos hk, if_pos (List.mem_cons_of_mem _ hk)]
      · rw [if_neg hk, if_neg (fun hh => ?_)]
        rcases List.mem_cons.mp hh with rfl | hh2
        · exact hd rfl
        · exact hk hh2

theorem groupPairs_fst [DecidableEq α] (l : List α) :
    (groupPairs l).map Prod.fst = firstOccs l := by
  rw [groupPairs, List.map_map]
  exact List.map_id _

theorem mem_groupPairs_fst [DecidableEq α] :
    ∀ (l : List α), ∀ dc ∈ groupPairs l, dc.1 ∈ l := by
  intro l dc hdc
  rcases List.mem_map.mp hdc with ⟨d, hd, rfl⟩
  exact (mem_firstOccs l d).mp hd

theorem groupPairs_nodup_fst [DecidableEq α] :
    ∀ (l : List α), ((groupPairs l).map Prod.fst).Nodup := by
  intro l
  rw [groupPairs_fst]
  exact firstOccs_nodup l

theorem alLookup_groupPairs [DecidableEq α] :
    ∀ (l : List α) (k : α),
      alLookup k (groupPairs l) =
        if l.count k = 0 then none else some (l.count k) := by
  intro l k
  rw [groupPairs, alLookup_map_keyfun]
  by_cases hm : k ∈ l
  · rw [if_pos ((mem_firstOccs l k).mpr hm)]
    rw [if_neg (Nat.pos_iff_ne_zero.mp (List.count_pos_iff.mpr hm))]
  · rw [if_neg (fun hh => hm ((mem_firstOccs l k).mp hh))]
    rw [if_pos (by simpa using List.count_eq_zero_of_not_mem hm)]

/-! ## Buffering pipeline lemmas -/

theorem rpopLoop_eq_take (fuel : Nat) :
    ∀ (q : List α), rpopLoop fuel q = (q.reverse.take fuel, (q.reverse.drop fuel).reverse) := by
  induction fuel with
  | zero => intro q; simp [rpopLoop]
  | succ k ih =>
    intro q
    rcases q.eq_nil_or_concat with h | ⟨l, x, h⟩
    · subst h; simp [rpopLoop]
    · subst h
      rw [List.concat_eq_append]
      simp [rpopLoop, List.getLast?_concat, List.dropLast_concat, ih, List.reverse_concat]

/-! ## Popularity result-loop lemmas -/

theorem popLoop_length (dict : List ModelObj) (limit : Nat) :
    ∀ (cands : List (Nat × Nat)) (acc : List (ModelObj × Nat)),
      acc.length < limit →
      (popLoop dict limit cands acc).length =
        min limit (acc.length +
          cands.countP (fun c => (dict.find? (fun o => o.pk == c.1)).isSome)) := by
  intro cands
  induction cands with
  | nil =>
    intro acc hacc
    simp [popLoop, Nat.min_eq_right hacc.le]
  | cons c rest ih =>
    intro acc hacc
    rw [popLoop]
    cases hf : dict.find? (fun o => o.pk == c.1) with
    | none =>
      dsimp only
      rw [ih acc hacc, List.countP_cons]
      simp [hf]
    | some o =>
      dsimp only
      have hcnt : (c :: rest).countP (fun c => (dict.find? (fun o => o.pk == c.1)).isSome) =
          rest.countP (fun c => (dict.find? (fun o => o.pk == c.1)).isSome) + 1 := by
        rw [List.countP_cons]
        simp [hf]
      rw [hcnt]
      by_cases hlim : limit ≤ ((o, c.2) :: acc).length
      · rw [if_pos hlim]
        simp only [List.length_reverse, List.length_cons] at hlim ⊢
        omega
      · rw [if_neg hlim]
        rw [ih _ (Nat.lt_of_not_le hlim)]
        simp only [List.length_cons] at hlim ⊢
        omega

theorem popLoop_mem (dict : List ModelObj) (limit : Nat) :
    ∀ (cands : List (Nat × Nat)) (acc : List (ModelObj × Nat)),
      ∀ p ∈ popLoop dict limit cands acc,
        p ∈ acc ∨ ∃ c ∈ cands, dict.find? (fun o => o.pk == c.1) = some p.1 ∧ p.2 = c.2 := by
  intro cands
  induction cands with
  | nil =>
    intro acc p hp
    rw [popLoop, List.mem_reverse] at hp
    exact Or.inl hp
  | cons c rest ih =>
    intro acc p hp
    rw [popLoop] at hp
    cases hf : dict.find? (fun o => o.pk == c.1) with
    | none =>
      rw [hf] at hp
      dsimp only at hp
      rcases ih acc p hp with h | ⟨c', hc', hfind, hsnd⟩
      · exact Or.inl h
      · exact Or.inr ⟨c', List.mem_cons_of_mem _ hc', hfind, hsnd⟩
    | some o =>
      rw [hf] at hp
      dsimp only at hp
      by_cases hlim : limit ≤ ((o, c.2) :: acc).length
      · rw [if_pos hlim, List.mem_reverse] at hp
        rcases List.mem_cons.mp hp with rfl | h
        · exact Or.inr ⟨c, List.mem_cons_self _ _, hf, rfl⟩
        · exact Or.inl h
      · rw [if_neg hlim] at hp
        rcases ih _ p hp with h | ⟨c', hc', hfind, hsnd⟩
        · rcases List.mem_cons.mp h with rfl | h2
          · exact Or.inr ⟨c, List.mem_cons_self _ _, hf, rfl⟩
          · exact Or.inl h2
        · exact Or.inr ⟨c', List.mem_cons_of_mem _ hc', hfind, hsnd⟩

/-! ## Middleware path lemmas -/

theorem should_record_view_misses (s : AppSettings) (now : Nat) (c : Cache)
    (req : HttpRequest) (hbot : isBot s req = false) (hok : c.failing = false)
    (hmiss : c.entries.any (fun e => e.1 == middlewareCacheKey req && now < e.2) = false) :
    should_record_view s now c req =
      .ok (true, { c with entries := (middlewareCacheKey req, now + s.throttleSeconds) :: c.entries }) := by
  simp only [should_record_view, hbot, cacheGet, cacheSet, hok, hmiss,
    Bool.false_eq_true, if_false]
  rfl

theorem should_record_view_hit (s : AppSettings) (now : Nat) (c : Cache)
    (req : HttpRequest) (hbot : isBot s req = false) (hok : c.failing = false)
    (hhit : c.entries.any (fun e => e.1 == middlewareCacheKey req && now < e.2) = true) :
    should_record_view s now c req = .ok (false, c) := by
  simp only [should_record_view, hbot, cacheGet, hok, hhit,
    Bool.false_eq_true, if_false]
  rfl

theorem process_response_records (s : AppSettings) (now : Nat) (st : SysState)
    (req : HttpRequest)
    (h200 : req.statusCode = 200) (hget : req.method = "GET")
    (htrack : should_track_view s req = true) (hbot : isBot s req = false)
    (hok : st.cache.failing = false)
    (hmiss : st.cache.entries.any (fun e => e.1 == middlewareCacheKey req && now < e.2) = false)
    (hsync : s.asyncProcessing = false) :
    process_response s now st req =
      { st with
        cache := { st.cache with
          entries := (middlewareCacheKey req, now + s.throttleSeconds) :: st.cache.entries }
        store := middlewareRow now req :: st.store } := by
  rw [process_response]
  rw [if_pos (by simp [h200, hget])]
  rw [should_record_view_misses s now st.cache req hbot hok hmiss]
  simp only [htrack, hsync, Bool.false_eq_true, if_false, Bool.not_false, if_true]
  rfl

theorem process_response_hit (s : AppSettings) (now : Nat) (st : SysState)
    (req : HttpRequest)
    (h200 : req.statusCode = 200) (hget : req.method = "GET")
    (hbot : isBot s req = false)
    (hok : st.cache.failing = false)
    (hhit : st.cache.entries.any (fun e => e.1 == middlewareCacheKey req && now < e.2) = true) :
    process_response s now st req = st := by
  rw [process_response]
  rw [if_pos (by simp [h200, hget])]
  rw [should_record_view_hit s now st.cache req hbot hok hhit]
  by_cases htrack : should_track_view s req = true
  · simp only [htrack, Bool.not_true, Bool.false_eq_true, if_false]
    rfl
  · simp [htrack]

theorem alLookup_foldl_pk (f : Nat → Nat) :
    ∀ (objects : List BatchObj) (init : List (Nat × Nat)) (k : Nat),
      alLookup k (objects.foldl (fun acc o => setKey o.pk (f o.pk) acc) init) =
        if k ∈ objects.map (·.pk) then some (f k) else alLookup k init := by
  intro objects
  induction objects with
  | nil => intro init k; simp
  | cons o rest ih =>
    intro init k
    have step : (o :: rest).foldl (fun acc o => setKey o.pk (f o.pk) acc) init =
        rest.foldl (fun acc o => setKey o.pk (f o.pk) acc) (setKey o.pk (f o.pk) init) := rfl
    rw [step, ih, List.map_cons]
    by_cases hk : k = o.pk
    · subst hk
      rw [if_pos (List.mem_cons_self _ _)]
      by_cases hr : o.pk ∈ rest.map (·.pk)
      · rw [if_pos hr]
      · rw [if_neg hr, alLookup_setKey_self]
    · have hcons : (k ∈ o.pk :: rest.map (·.pk)) ↔ (k ∈ rest.map (·.pk)) :=
        ⟨fun h => (List.mem_cons.mp h).resolve_left hk, List.mem_cons_of_mem _⟩
      by_cases hr : k ∈ rest.map (·.pk)
      · rw [if_pos hr, if_pos (hcons.mpr hr)]
      · rw [if_neg hr, if_neg (fun hh => hr (hcons.mp hh)),
          alLookup_setKey_ne o.pk k (f o.pk) hk init]

theorem count_map_value (events : List CountEvent) (modelCt : Nat) (ids : List Nat)
    (pk : Nat) (hpk : pk ∈ ids) :
    (alLookup pk (groupPairs ((events.filter
        (fun e => e.ctId == modelCt && ids.contains e.objId)).map (·.objId)))).getD 0 =
      (events.filter (fun e => e.ctId == modelCt && e.objId == pk)).length := by
  rw [alLookup_groupPairs]
  have hcount : ((events.filter (fun e => e.ctId == modelCt && ids.contains e.objId)).map
      (·.objId)).count pk =
      (events.filter (fun e => e.ctId == modelCt && e.objId == pk)).length := by
    rw [List.count_eq_countP, List.countP_map, List.countP_filter,
      ← List.countP_eq_length_filter]
    refine List.countP_congr ?_
    intro e _
    cases hobj : e.objId == pk with
    | false => simp [Function.comp, hobj]
    | true =>
      have h1 : e.objId = pk := eq_of_beq hobj
      simp [Function.comp, hobj, h1, hpk]
  rw [hcount]
  by_cases h0 : (events.filter (fun e => e.ctId == modelCt && e.objId == pk)).length = 0
  · rw [if_pos h0, h0]
    rfl
  · rw [if_neg h0]
    rfl

/-! ## Claim theorems -/

set_option maxRecDepth 40000 in
/-- C8: `buffer_page_view` pushes one serialized payload onto the head of
the durable list and reports the flush trigger exactly when the list
length has reached `BATCH_SIZE`; `process_pageview_buffer` pops at most
`BATCH_SIZE` payloads from the tail (the reversed-prefix of the queue,
oldest first) and bulk-appends exactly those to the event store, a flush
finding zero payloads inserting nothing; and after enqueuing 150 payloads
with `BATCH_SIZE = 100` and running the triggered flushes, the event
store holds at least 100 events and at most 50 payloads stay queued. -/
theorem buffering_batch_contract :
    (∀ (batchSize : Nat) (q : List Nat) (p : Nat),
      (buffer_page_view batchSize q p).1 = p :: q ∧
      ((buffer_page_view batchSize q p).2 = true ↔ batchSize ≤ q.length + 1)) ∧
    (∀ (batchSize : Nat) (q store : List Nat),
      (rpopLoop batchSize q).1 = q.reverse.take batchSize ∧
      (rpopLoop batchSize q).1.length ≤ batchSize ∧
      (process_pageview_buffer batchSize q store).2 = store ++ (rpopLoop batchSize q).1 ∧
      (q = [] → process_pageview_buffer batchSize q store = (q, store))) ∧
    (100 ≤ (enqueueAll 100 (List.range 150) (([] : List Nat), [])).2.length ∧
      (enqueueAll 100 (List.range 150) (([] : List Nat), [])).1.length ≤ 50) := by
  refine ⟨fun batchSize q p => ⟨rfl, ?_⟩, fun batchSize q store => ⟨?_, ?_, ?_, ?_⟩, by decide⟩
  · simp [buffer_page_view]
  · rw [rpopLoop_eq_take]
  · rw [rpopLoop_eq_take]
    simp only [List.length_take]
    exact Nat.min_le_left _ _
  · rw [process_pageview_buffer]
    by_cases h : (rpopLoop batchSize q).1.isEmpty = true
    · rw [List.isEmpty_iff] at h
      simp [h]
    · simp [h]
  · intro hq
    subst hq
    rw [process_pageview_buffer, rpopLoop_eq_take]
    simp

/-- C8 witness: a concrete flush over the empty queue leaves the store
untouched, through `buffering_batch_contract` with its `q = []`
hypothesis discharged. -/
theorem buffering_batch_contract_holds :
    process_pageview_buffer 3 ([] : List Nat) [7] = ([], [7]) :=
  (buffering_batch_contract.2.1 3 [] [7]).2.2.2 rfl

/-- C6: a request whose response status is not 200 or whose method is not
GET leaves the tracking state untouched on both recording paths — the
middleware's `process_response` and the mixin's patched dispatch record
no event. -/
theorem non_success_requests_never_recorded :
    (∀ (s : AppSettings) (now : Nat) (st : SysState) (req : HttpRequest),
      req.statusCode ≠ 200 ∨ req.method ≠ "GET" →
      process_response s now st req = st) ∧
    (∀ (throttleSeconds now : Nat) (c : Cache) (store : List PageViewRow)
      (req : MixinRequest) (tracked : Except Unit (Option TrackedObj)),
      req.statusCode ≠ 200 ∨ req.method ≠ "GET" →
      patched_dispatch throttleSeconds now c store req tracked = (c, store)) := by
  constructor
  · intro s now st req h
    have hguard : (req.statusCode == 200 && req.method == "GET") = false := by
      rcases h with h | h <;> simp [h]
    rw [process_response, hguard]
    simp
  · intro throttleSeconds now c store req tracked h
    have hguard : (req.method == "GET" && req.statusCode == 200) = false := by
      rcases h with h | h <;> simp [h]
    rw [patched_dispatch.eq_def, hguard]
    simp

/-- C6 witness: a concrete 404 response through `process_response` leaves
the empty state unchanged, via `non_success_requests_never_recorded`. -/
theorem non_success_requests_never_recorded_holds :
    process_response sampleSettings 0 emptyState
      { sampleRequest with statusCode := 404 } = emptyState :=
  non_success_requests_never_recorded.1 sampleSettings 0 emptyState
    { sampleRequest with statusCode := 404 } (Or.inl (by decide))

/-- C3 counterexample: an otherwise fully admissible visit (200/GET,
trackable, not a bot) hitting a failing Throttle Cache backend is NOT
recorded — `process_response` returns with the event store unchanged
(empty), because the cache error propagates to the outer `try`/`except`
which swallows it after skipping the recording step. This refutes the
claim that on a cache error the visit is treated as admitted and an
event is still recorded. -/
theorem cache_error_admit_cex :
    should_track_view sampleSettings sampleRequest = true ∧
    isBot sampleSettings sampleRequest = false ∧
    process_response sampleSettings 0 failingCacheState sampleRequest = failingCacheState ∧
    (process_response sampleSettings 0 failingCacheState sampleRequest).store = [] := by
  refine ⟨by decide, by decide, by decide, by decide⟩

/-- C3 amended: if the Throttle Cache get or set raises, the surrounding
request never fails — `process_response` still returns normally — but the
visit is dropped rather than admitted: the state (event store included)
is returned unchanged. -/
theorem cache_error_swallowed_not_recorded (s : AppSettings) (now : Nat)
    (st : SysState) (req : HttpRequest) (h : st.cache.failing = true) :
    process_response s now st req = st := by
  rw [process_response]
  by_cases hguard : (req.statusCode == 200 && req.method == "GET") = true
  · rw [if_pos hguard]
    by_cases htrack : should_track_view s req = true
    · by_cases hbot : isBot s req = true
      · have hsrv : should_record_view s now st.cache req = .ok (false, st.cache) := by
          rw [should_record_view, if_pos hbot]
        rw [hsrv]
        simp only [htrack, Bool.not_true, Bool.false_eq_true, if_false]
        rfl
      · have hsrv : should_record_view s now st.cache req = .error () := by
          rw [should_record_view, if_neg hbot, cacheGet, if_pos h]
          rfl
        rw [hsrv]
        simp only [htrack, Bool.not_true, Bool.false_eq_true, if_false]
        rfl
    · simp [htrack]
  · rw [if_neg hguard]

/-- C3 amended witness: `cache_error_swallowed_not_recorded` applied to
the concrete failing-cache state. -/
theorem cache_error_swallowed_not_recorded_holds :
    process_response sampleSettings 3 failingCacheState sampleRequest = failingCacheState :=
  cache_error_swallowed_not_recorded sampleSettings 3 failingCacheState sampleRequest rfl

/-- C4: with a working cache and the dedup key initially absent, two
admission attempts with the identical key within `THROTTLE_SECONDS` of
each other yield exactly one admitted recording — the first attempt sets
the key (with the window expiry) and prepends exactly one event to the
store, and the second finds the key present and is rejected with no side
effects on the event store or the cache. -/
theorem throttle_idempotent_admission (s : AppSettings) (st : SysState)
    (req : HttpRequest) (t1 t2 : Nat)
    (h200 : req.statusCode = 200) (hget : req.method = "GET")
    (htrack : should_track_view s req = true)
    (hbot : isBot s req = false)
    (hok : st.cache.failing = false)
    (hmiss : st.cache.entries.any (fun e => e.1 == middlewareCacheKey req && t1 < e.2) = false)
    (hsync : s.asyncProcessing = false)
    (hwin : t2 < t1 + s.throttleSeconds) :
    (process_response s t1 st req).store = middlewareRow t1 req :: st.store ∧
    (process_response s t1 st req).cache.entries =
      (middlewareCacheKey req, t1 + s.throttleSeconds) :: st.cache.entries ∧
    process_response s t2 (process_response s t1 st req) req =
      process_response s t1 st req := by
  have h1 := process_response_records s t1 st req h200 hget htrack hbot hok hmiss hsync
  refine ⟨by rw [h1], by rw [h1], ?_⟩
  rw [h1]
  apply process_response_hit s t2 _ req h200 hget hbot
  · exact hok
  · simp [hwin]

/-- C4 witness: `throttle_idempotent_admission` on the concrete sample
request, empty working cache, first attempt at time 0 and second at time
5 within the 20-second window. -/
theorem throttle_idempotent_admission_holds :
    (process_response sampleSettings 0 emptyState sampleRequest).store =
      middlewareRow 0 sampleRequest :: [] ∧
    (process_response sampleSettings 0 emptyState sampleRequest).cache.entries =
      (middlewareCacheKey sampleRequest, 0 + sampleSettings.throttleSeconds) :: [] ∧
    process_response sampleSettings 5 (process_response sampleSettings 0 emptyState sampleRequest)
        sampleRequest =
      process_response sampleSettings 0 emptyState sampleRequest :=
  throttle_idempotent_admission sampleSettings emptyState sampleRequest 0 5
    rfl rfl (by decide) (by decide) rfl (by decide) rfl (by decide)

/-- C2 counterexample: `sampleRequest` and `sampleRequest2` are the same
visitor (same identity key) visiting the same URL, with distinct resolved
subjects (objects 5 and 6 of content type 1), yet the middleware dedup
key is identical for both — and consequently the second visit within the
window is rejected, leaving a single recorded event. This refutes the
claim that distinct resolved subjects yield distinct dedup keys. -/
theorem dedup_key_ignores_subject_cex :
    middlewareUserKey sampleRequest = middlewareUserKey sampleRequest2 ∧
    sampleRequest.path = sampleRequest2.path ∧
    resolvedSubject sampleRequest = some { ctId := 1, objId := 5 } ∧
    resolvedSubject sampleRequest2 = some { ctId := 1, objId := 6 } ∧
    middlewareCacheKey sampleRequest = middlewareCacheKey sampleRequest2 ∧
    (process_response sampleSettings 1
      (process_response sampleSettings 0 emptyState sampleRequest)
      sampleRequest2).store.length = 1 := by
  refine ⟨by decide, by decide, by decide, by decide, by decide, by decide⟩

/-- C2 amended: the middleware dedup key is
`pageview_throttle:<identity>:<URL>` where the identity is, in priority
order, the authenticated-user id, else a truthy session key, else the
client IP (there is no separate anonymous bucket on this path); the key
always uses the URL and never the resolved subject, so it is invariant
under changing the resolver match. The object-level path
`increment_view_count` instead keys on content type, object id and
identity (with a literal `"anon"` fallback) and never the URL. -/
theorem dedup_key_characterization :
    (∀ req : HttpRequest, middlewareCacheKey req =
      "pageview_throttle:" ++ middlewareUserKey req ++ ":" ++ req.path) ∧
    (∀ (req : HttpRequest) (rm : Option RMatch),
      middlewareCacheKey { req with resolverMatch := rm } = middlewareCacheKey req) ∧
    (∀ req : HttpRequest, req.userAuthenticated = true →
      middlewareUserKey req = "user:" ++ toString req.userId) ∧
    (∀ req : HttpRequest, req.userAuthenticated = false →
      (req.hasSession && optTruthy req.sessionKey0) = true →
      middlewareUserKey req = "session:" ++ req.sessionKey0.getD "") ∧
    (∀ req : HttpRequest, req.userAuthenticated = false →
      (req.hasSession && optTruthy req.sessionKey0) = false →
      middlewareUserKey req = "ip:" ++ get_client_ip req) ∧
    (∀ (ctId objId : Nat) (userKey : String),
      incrementCacheKey ctId objId userKey =
        "pageview_throttle:" ++ toString ctId ++ ":" ++ toString objId ++ ":" ++ userKey) ∧
    (∀ (uid : Nat) (sk ip : Option String),
      incrementUserKey (some uid) sk ip = "user:" ++ toString uid) ∧
    (∀ sk ip : Option String, optTruthy sk = false → optTruthy ip = false →
      incrementUserKey none sk ip = "anon") := by
  refine ⟨fun req => rfl, fun req rm => rfl, ?_, ?_, ?_, fun a b c => rfl, fun a b c => rfl, ?_⟩
  · intro req h
    rw [middlewareUserKey, if_pos h]
  · intro req h hs
    rw [middlewareUserKey, if_neg (by simp [h]), if_pos hs]
  · intro req h hs
    rw [middlewareUserKey, if_neg (by simp [h]), if_neg (by simp [hs])]
  · intro sk ip h1 h2
    rw [incrementUserKey]
    simp [h1, h2]

/-- C2 amended witness: `dedup_key_characterization` instantiated at the
sample request (unauthenticated, no session) and at an anonymous
`increment_view_count` call. -/
theorem dedup_key_characterization_holds :
    middlewareUserKey sampleRequest = "ip:" ++ get_client_ip sampleRequest ∧
    incrementUserKey none none none = "anon" :=
  ⟨dedup_key_characterization.2.2.2.2.1 sampleRequest rfl rfl,
   dedup_key_characterization.2.2.2.2.2.2.2 none none rfl rfl⟩

/-- C7: when a handler exposes `get_tracked_object` and its evaluation
returns normally, that returned result is used verbatim — an explicit
`None` ("nothing to track") answer does not fall through to the
`get_object`, queryset-first or pk/id/slug strategies; and a visit with
no resolved subject is still recorded as a bare URL visit, with both
subject columns null. -/
theorem tracked_accessor_used_verbatim :
    (∀ (v : ViewDesc) (r : Option TrackedObj),
      v.hasViewClass = true → v.initRaises = false → v.hasGetTracked = true →
      (v.hasGetQueryset = true → v.getQuerysetRaises = false) →
      v.getTrackedResult = .ok r →
      get_object_from_view v = r) ∧
    (∀ (s : AppSettings) (now : Nat) (st : SysState) (req : HttpRequest),
      req.statusCode = 200 → req.method = "GET" →
      should_track_view s req = true → isBot s req = false →
      st.cache.failing = false →
      st.cache.entries.any (fun e => e.1 == middlewareCacheKey req && now < e.2) = false →
      s.asyncProcessing = false →
      resolvedSubject req = none →
      ((process_response s now st req).store = middlewareRow now req :: st.store ∧
       (middlewareRow now req).contentTypeId = none ∧
       (middlewareRow now req).objectId = none)) := by
  constructor
  · intro v r h1 h2 h3 h4 h5
    by_cases hq : v.hasGetQueryset = true
    · simp [get_object_from_view, h1, h2, h3, h5, hq, h4 hq]
    · have hq2 : v.hasGetQueryset = false := by simpa using hq
      simp [get_object_from_view, h1, h2, h3, h5, hq2]
  · intro s now st req h200 hget htrack hbot hok hmiss hsync hres
    refine ⟨?_, ?_, ?_⟩
    · rw [process_response_records s now st req h200 hget htrack hbot hok hmiss hsync]
    · simp [middlewareRow, hres]
    · simp [middlewareRow, hres]

/-- C7 witness: `tracked_accessor_used_verbatim` applied to
`sampleViewNone` (whose accessor answers `None` while every later
strategy would produce an object) and to the concrete bare visit, which
is recorded with null subject columns. -/
theorem tracked_accessor_used_verbatim_holds :
    get_object_from_view sampleViewNone = none ∧
    (process_response sampleSettings 0 emptyState sampleRequestBare).store =
      middlewareRow 0 sampleRequestBare :: [] ∧
    (middlewareRow 0 sampleRequestBare).contentTypeId = none ∧
    (middlewareRow 0 sampleRequestBare).objectId = none :=
  ⟨tracked_accessor_used_verbatim.1 sampleViewNone none rfl rfl rfl
      (fun h => Bool.noConfusion h) rfl,
   tracked_accessor_used_verbatim.2 sampleSettings 0 emptyState sampleRequestBare
      rfl rfl (by decide) (by decide) rfl (by decide) rfl (by decide)⟩

/-- C1 counterexample: with `limit = 1` the full (undated) event set has
exactly one distinct subject — id 3 — whose object still resolves (so
exactly `limit` valid subjects exist among ALL subjects), yet
`get_popular_objects` returns zero pairs: it examines only the top
`2 * limit` ranked candidates (ids 1 and 2, both unresolvable) and never
reaches id 3 further down the ranking. This refutes the claim that fewer
than `limit` pairs are returned only when fewer than `limit` valid
subjects exist in the whole filtered set. -/
theorem popular_truncated_search_cex :
    get_popular_objects popCexEvents popCexObjs true 1 none 0 = .ok [] ∧
    (groupPairs ((popFiltered popCexEvents none 0).map (·.objId))).countP
      (fun c => ((resolveObjs popCexObjs true).find? (fun o => o.pk == c.1)).isSome) = 1 := by
  exact ⟨rfl, by decide⟩

/-- C1 amended: for a model declaring a `slug` field (on any other model
the function raises `FieldDoesNotExist` from the unconditional slug-field
lookup), `get_popular_objects` returns exactly
`min limit (number of resolvable candidates among the top 2*limit ranked
candidates)` pairs — it never includes a subject whose object does not
resolve, and it keeps searching only within those top `2 * limit` ranked
candidates until `limit` valid objects are found or that candidate
window is exhausted. -/
theorem popular_bounded_candidate_search
    (events : List PopEvent) (objs : List ModelObj) (limit : Nat)
    (days : Option Nat) (now : Int) (r : List (ModelObj × Nat))
    (h : get_popular_objects events objs true limit days now = .ok r) :
    r.length = min limit (((rankedCandidates events days now).take (limit * 2)).countP
        (fun c => ((resolveObjs objs true).find? (fun o => o.pk == c.1)).isSome)) ∧
    ∀ p ∈ r, ∃ c ∈ (rankedCandidates events days now).take (limit * 2),
      (resolveObjs objs true).find? (fun o => o.pk == c.1) = some p.1 ∧ p.2 = c.2 := by
  have hr : r = popLoop (resolveObjs objs true) limit
      ((rankedCandidates events days now).take (limit * 2)) [] := by
    rw [get_popular_objects] at h
    simp only [if_true, Except.ok.injEq] at h
    exact h.symm
  subst hr
  constructor
  · cases limit with
    | zero => simp [popLoop]
    | succ k =>
      rw [popLoop_length _ _ _ [] (Nat.succ_pos k)]
      simp
  · intro p hp
    rcases popLoop_mem _ _ _ [] p hp with hmem | hmem
    · simp at hmem
    · exact hmem

/-- C1 amended witness: `popular_bounded_candidate_search` with its
hypothesis discharged by computation on a one-event store whose single
subject resolves. -/
theorem popular_bounded_candidate_search_holds :
    ([({ pk := 1, slug := some "a" }, 1)] : List (ModelObj × Nat)).length =
      min 5 (((rankedCandidates [{ objId := 1, ts := 0 }] none 0).take (5 * 2)).countP
        (fun c => ((resolveObjs [{ pk := 1, slug := some "a" }] true).find?
          (fun o => o.pk == c.1)).isSome)) :=
  (popular_bounded_candidate_search [{ objId := 1, ts := 0 }]
    [{ pk := 1, slug := some "a" }] 5 none 0 [({ pk := 1, slug := some "a" }, 1)] rfl).1

/-- C10: for a model declaring a `slug` field, every pair
`get_popular_objects` returns has a non-null, non-empty slug — a
candidate object with a null or empty slug is silently excluded even when
it exists and has recorded events — whereas `get_popular_objects_raw`
applies no slug filter: on the same data (object 1 with an empty slug and
two recorded views) the filtered query returns nothing while the raw
query returns that object with its count. -/
theorem slug_filter_divergence :
    (∀ (events : List PopEvent) (objs : List ModelObj) (limit : Nat)
      (days : Option Nat) (now : Int) (r : List (ModelObj × Nat)),
      get_popular_objects events objs true limit days now = .ok r →
      ∀ p ∈ r, slugOk p.1 = true) ∧
    (get_popular_objects [{ objId := 1, ts := 0 }, { objId := 1, ts := 0 }]
        [{ pk := 1, slug := some "" }] true 5 none 0 = .ok [] ∧
      get_popular_objects_raw [{ objId := 1, ts := 0 }, { objId := 1, ts := 0 }]
        [{ pk := 1, slug := some "" }] 5 none 0 =
        [({ pk := 1, slug := some "" }, 2)]) := by
  constructor
  · intro events objs limit days now r h p hp
    have hr : r = popLoop (resolveObjs objs true) limit
        ((rankedCandidates events days now).take (limit * 2)) [] := by
      rw [get_popular_objects] at h
      simp only [if_true, Except.ok.injEq] at h
      exact h.symm
    subst hr
    rcases popLoop_mem _ _ _ [] p hp with hmem | hmem
    · simp at hmem
    · rcases hmem with ⟨c, hc, hfind, hsnd⟩
      have hmemp : p.1 ∈ resolveObjs objs true := List.mem_of_find?_eq_some hfind
      simp only [resolveObjs, if_true] at hmemp
      exact (List.mem_filter.mp hmemp).2
  · exact ⟨rfl, by decide⟩

/-- C10 witness: `slug_filter_divergence` applied to a concrete run whose
single returned pair indeed carries a valid slug. -/
theorem slug_filter_divergence_holds :
    slugOk { pk := 2, slug := some "b" } = true :=
  slug_filter_divergence.1 [{ objId := 2, ts := 0 }] [{ pk := 2, slug := some "b" }]
    1 none 0 [({ pk := 2, slug := some "b" }, 1)] rfl
    ({ pk := 2, slug := some "b" }, 1) (by decide)

/-- C9: for a non-empty object list, `get_view_counts_for_objects`
evaluates exactly one event-store query (the grouped aggregate),
independent of the list length, and its mapping answers every object of
the input list: the object's primary key maps to the exact number of its
recorded events for that content type — in particular to 0 when it has
none. -/
theorem batch_counts_complete (events : List CountEvent) (modelCt : Nat)
    (objects : List BatchObj) (hne : objects ≠ []) :
    (∀ o ∈ objects,
      alLookup o.pk (get_view_counts_for_objects events modelCt objects).1 =
        some ((events.filter (fun e => e.ctId == modelCt && e.objId == o.pk)).length)) ∧
    (get_view_counts_for_objects events modelCt objects).2 = 1 := by
  have hguard : objects.isEmpty = false := by
    cases objects with
    | nil => exact absurd rfl hne
    | cons a l => rfl
  constructor
  · intro o ho
    rw [get_view_counts_for_objects, hguard]
    have hmem : o.pk ∈ objects.map (·.pk) := List.mem_map.mpr ⟨o, ho, rfl⟩
    have h2 := alLookup_foldl_pk
      (fun p => (alLookup p (groupPairs ((events.filter
        (fun e => e.ctId == modelCt && (objects.map (·.pk)).contains e.objId)).map
        (·.objId)))).getD 0) objects [] o.pk
    rw [if_pos hmem] at h2
    refine Eq.trans h2 ?_
    rw [count_map_value events modelCt (objects.map (·.pk)) o.pk hmem]
  · rw [get_view_counts_for_objects, hguard]
    rfl

/-- C9 witness: `batch_counts_complete` on a two-object list where object
1 has two events and object 2 has none. -/
theorem batch_counts_complete_holds :
    alLookup 1 (get_view_counts_for_objects
      [{ ctId := 1, objId := 1 }, { ctId := 1, objId := 1 }, { ctId := 2, objId := 3 }]
      1 [{ pk := 1 }, { pk := 2 }]).1 =
      some (([{ ctId := 1, objId := 1 }, { ctId := 1, objId := 1 },
        { ctId := 2, objId := 3 }] : List CountEvent).filter
          (fun e => e.ctId == 1 && e.objId == (1 : Nat))).length ∧
    (get_view_counts_for_objects
      [{ ctId := 1, objId := 1 }, { ctId := 1, objId := 1 }, { ctId := 2, objId := 3 }]
      1 [{ pk := 1 }, { pk := 2 }]).2 = 1 :=
  ⟨(batch_counts_complete
      [{ ctId := 1, objId := 1 }, { ctId := 1, objId := 1 }, { ctId := 2, objId := 3 }]
      1 [{ pk := 1 }, { pk := 2 }] (by decide)).1 { pk := 1 } (by decide),
   (batch_counts_complete
      [{ ctId := 1, objId := 1 }, { ctId := 1, objId := 1 }, { ctId := 2, objId := 3 }]
      1 [{ pk := 1 }, { pk := 2 }] (by decide)).2⟩

theorem alLookup_range_base (start : Int) (days i : Nat) (h : i < days) :
    alLookup (start + (i : Int))
      ((List.range days).map (fun (j : Nat) => (start + (j : Int), (0 : Nat)))) = some 0 := by
  have hgen : ∀ (ks : List Nat), i ∈ ks →
      alLookup (start + (i : Int))
        (ks.map (fun (j : Nat) => (start + (j : Int), (0 : Nat)))) = some 0 := by
    intro ks
    induction ks with
    | nil => intro h2; simp at h2
    | cons j rest ih =>
      intro h2
      by_cases hj : j = i
      · subst hj
        simp [alLookup]
      · have hne : start + (j : Int) ≠ start + (i : Int) := by
          intro hh
          exact hj (by omega)
        rcases List.mem_cons.mp h2 with h3 | h3
        · exact absurd h3.symm hj
        · simp [alLookup, hne, ih h3]
  exact hgen (List.range days) (List.mem_range.mpr h)

theorem daily_dict_spec (dates : List Int) (start : Int) (days : Nat)
    (hdates : ∀ d ∈ dates, ∃ i : Nat, i < days ∧ d = start + (i : Int)) :
    (((groupPairs dates).foldl (fun acc dc => setKey dc.1 dc.2 acc)
        ((List.range days).map (fun (i : Nat) => (start + (i : Int), (0 : Nat))))).map Prod.fst =
      (List.range days).map (fun (i : Nat) => start + (i : Int))) ∧
    ∀ i : Nat, i < days →
      alLookup (start + (i : Int))
          ((groupPairs dates).foldl (fun acc dc => setKey dc.1 dc.2 acc)
            ((List.range days).map (fun (i : Nat) => (start + (i : Int), (0 : Nat))))) =
        some (dates.count (start + (i : Int))) := by
  have hbk : ((List.range days).map (fun (i : Nat) => (start + (i : Int), (0 : Nat)))).map Prod.fst =
      (List.range days).map (fun (i : Nat) => start + (i : Int)) := by
    rw [List.map_map]
    rfl
  have hmemAll : ∀ dc ∈ groupPairs dates, dc.1 ∈
      ((List.range days).map (fun (i : Nat) => (start + (i : Int), (0 : Nat)))).map Prod.fst := by
    intro dc hdc
    rcases hdates dc.1 (mem_groupPairs_fst _ dc hdc) with ⟨i, hi, hdi⟩
    rw [hbk, hdi]
    exact List.mem_map.mpr ⟨i, List.mem_range.mpr hi, rfl⟩
  constructor
  · rw [map_fst_foldl_setKey _ _ hmemAll, hbk]
  · intro i hi
    have hlook := alLookup_foldl_setKey (groupPairs dates) (groupPairs_nodup_fst _)
      ((List.range days).map (fun (i : Nat) => (start + (i : Int), (0 : Nat)))) (start + (i : Int))
    rw [alLookup_groupPairs] at hlook
    by_cases h0 : dates.count (start + (i : Int)) = 0
    · rw [hlook, if_pos h0, h0]
      exact alLookup_range_base start days i hi
    · rw [hlook, if_neg h0]

theorem daily_count_window (events : List DailyEvent) (ctId objId : Nat)
    (start today : Int) (d : Int) (hsd : start ≤ d) (hdt : d ≤ today) :
    ((events.filter (fun e => e.ctId == ctId && e.objId == objId &&
        decide (start ≤ e.date) && decide (e.date ≤ today))).map (·.date)).count d =
      (events.filter (fun e => e.ctId == ctId && e.objId == objId && e.date == d)).length := by
  rw [List.count_eq_countP, List.countP_map, List.countP_filter,
    ← List.countP_eq_length_filter]
  refine List.countP_congr ?_
  intro e _
  cases hdd : e.date == d with
  | false => simp [Function.comp, hdd]
  | true =>
    have hde : e.date = d := eq_of_beq hdd
    simp [Function.comp, hdd, hde, hsd, hdt]

/-- C5: for positive `days`, `get_daily_views` returns a mapping with
exactly `days` entries whose keys are exactly the calendar dates
`today - days + 1` through `today` in order, and whose value at each
such date is the subject's event count on that date — in particular 0
for dates with no matching events — never a sparse or partial result. -/
theorem daily_views_dense (events : List DailyEvent) (ctId objId : Nat)
    (today : Int) (days : Nat) (hd : 0 < days) :
    ((get_daily_views events ctId objId today days).map Prod.fst =
      (List.range days).map (fun (i : Nat) => today - ((days : Int) - 1) + (i : Int))) ∧
    (get_daily_views events ctId objId today days).length = days ∧
    ∀ i : Nat, i < days →
      alLookup (today - ((days : Int) - 1) + (i : Int))
          (get_daily_views events ctId objId today days) =
        some ((events.filter (fun e => e.ctId == ctId && e.objId == objId &&
          e.date == today - ((days : Int) - 1) + (i : Int))).length) := by
  have hdates : ∀ d ∈ (events.filter (fun e => e.ctId == ctId && e.objId == objId &&
      decide (today - ((days : Int) - 1) ≤ e.date) && decide (e.date ≤ today))).map (·.date),
      ∃ i : Nat, i < days ∧ d = today - ((days : Int) - 1) + (i : Int) := by
    intro d hd2
    rcases List.mem_map.mp hd2 with ⟨e, he, hdate⟩
    have hb := (List.mem_filter.mp he).2
    simp only [Bool.and_eq_true, decide_eq_true_eq] at hb
    obtain ⟨⟨-, hge⟩, hle⟩ := hb
    refine ⟨(d - (today - ((days : Int) - 1))).toNat, ?_, ?_⟩
    · omega
    · omega
  have hspec := daily_dict_spec
    ((events.filter (fun e => e.ctId == ctId && e.objId == objId &&
      decide (today - ((days : Int) - 1) ≤ e.date) && decide (e.date ≤ today))).map (·.date))
    (today - ((days : Int) - 1)) days hdates
  refine ⟨hspec.1, ?_, ?_⟩
  · have hlen := congrArg List.length hspec.1
    rw [List.length_map, List.length_map, List.length_range] at hlen
    exact hlen
  · intro i hi
    have hcnt := daily_count_window events ctId objId (today - ((days : Int) - 1)) today
      (today - ((days : Int) - 1) + (i : Int)) (by omega) (by omega)
    have hlook := hspec.2 i hi
    rw [hcnt] at hlook
    exact hlook

/-- C5 witness: `daily_views_dense` on a 2-day window around day 0 with a
single event on day 0: two entries, and the looked-up entry for day 0
carries that event's count. -/
theorem daily_views_dense_holds :
    (get_daily_views [{ ctId := 1, objId := 1, date := 0 }] 1 1 0 2).length = 2 ∧
    alLookup ((0 : Int) - (((2 : Nat) : Int) - 1) + ((1 : Nat) : Int))
        (get_daily_views [{ ctId := 1, objId := 1, date := 0 }] 1 1 0 2) =
      some (([{ ctId := 1, objId := 1, date := 0 }] : List DailyEvent).filter
        (fun e => e.ctId == 1 && e.objId == 1 &&
          e.date == (0 : Int) - (((2 : Nat) : Int) - 1) + ((1 : Nat) : Int))).length :=
  ⟨(daily_views_dense [{ ctId := 1, objId := 1, date := 0 }] 1 1 0 2 (by decide)).2.1,
   (daily_views_dense [{ ctId := 1, objId := 1, date := 0 }] 1 1 0 2 (by decide)).2.2 1
     (by decide)⟩
